import Mathlib

/-!
# nicoalert: a shallow embedding of `nicoalert.go`

The development follows the Go source function by function.

* A byte slice is the list of bytes in view together with the rest of its
  backing array up to the capacity: `s[lo:hi]` is bounded by the capacity,
  `s[i]` and `s[lo:]` by the length.
* A Go function returning `(value, error)` is an `Outcome`: `ok v` is
  `(v, nil)`, `error e` is `(nil, e)`, and `panic` is a run-time panic.
* Library calls (ECDH, HKDF, AES-GCM, base64, JSON, the websocket) are not part
  of the source: the cryptographic ones are fields of `Primitives`, the
  transport's behaviour is a script the functions consume.
-/

namespace Nicoalert

/-! ## Bytes, errors and outcomes -/

abbrev Byte := Fin 256

abbrev Bytes := List Byte

/-- The error values the program can hand back. -/
inductive Error
  /-- The value of `errors.New("Payload length is too short.")`. -/
  | payloadTooShort
  /-- The value of `errors.New("Did not receive hello response")`. -/
  | didNotReceiveHello
  /-- The value of `errors.New(fmt.Sprintf("Failed to register: %s", string(r)))`. -/
  | failedToRegister (raw : String)
  /-- An error value produced inside a library call. -/
  | library (code : Nat)
  deriving DecidableEq

/-- Result of a Go call: `(v, nil)`, `(nil, e)`, or a run-time panic. -/
inductive Outcome (α : Type)
  | ok (v : α)
  | error (e : Error)
  | panic (why : String)
  deriving DecidableEq

namespace Outcome

/-- Sequencing: an error or a panic ends the function. -/
def bind {α β : Type} (x : Outcome α) (f : α → Outcome β) : Outcome β :=
  match x with
  | .ok v => f v
  | .error e => .error e
  | .panic w => .panic w

instance : Monad Outcome where
  pure := Outcome.ok
  bind := Outcome.bind

/-- A library call that reports failure through its error value. -/
def ofExcept {α : Type} : Except Error α → Outcome α
  | .ok v => .ok v
  | .error e => .error e

end Outcome

/-- The byte values of a string literal. -/
def strBytes (s : String) : Bytes :=
  s.toList.map (fun c => Fin.ofNat c.toNat)

/-- A Go `[]byte`: the bytes in view (`len` of them) and the bytes of the
backing array that lie behind them, up to `cap`. -/
structure Slice where
  data : Bytes
  spare : Bytes
  deriving DecidableEq

/-- The value of `len(s)`. -/
def Slice.len (s : Slice) : Nat := s.data.length

/-- The value of `cap(s)`. -/
def Slice.cap (s : Slice) : Nat := s.data.length + s.spare.length

/-- Index expression `s[i]`: in range when `i < len(s)`. -/
def index (s : Slice) (i : Nat) : Outcome Byte :=
  match s.data[i]? with
  | some b => .ok b
  | none => .panic "index out of range"

/-- Slice expression `s[lo:hi]`: in range when `lo ≤ hi ≤ cap(s)`; the result
may reach into the bytes behind `len(s)`. -/
def slice (s : Slice) (lo hi : Nat) : Outcome Slice :=
  if lo ≤ hi ∧ hi ≤ s.cap then
    .ok ⟨((s.data ++ s.spare).take hi).drop lo, (s.data ++ s.spare).drop hi⟩
  else .panic "slice bounds out of range"

/-- Slice expression `s[lo:]`: the upper bound is `len(s)`, in range when
`lo ≤ len(s)`. -/
def sliceFrom (s : Slice) (lo : Nat) : Outcome Slice :=
  if lo ≤ s.len then .ok ⟨s.data.drop lo, s.spare⟩
  else .panic "slice bounds out of range"

/-! ## Padding -/

/-- Scan of `bytes.LastIndexByte`: indices `n-1, n-2, ..., 0`, the first hit wins. -/
def lastIndexBelow (s : Bytes) (c : Byte) : Nat → Int
  | 0 => -1
  | i + 1 => if s[i]? = some c then (i : Int) else lastIndexBelow s c i

/-- The function `bytes.LastIndexByte(s, c)`. -/
def LastIndexByte (s : Bytes) (c : Byte) : Int :=
  lastIndexBelow s c s.length

/-- The function `removePadding(payload, sep)`. -/
def removePadding (payload : Bytes) (sep : Byte) : Bytes :=
  let li := LastIndexByte payload sep
  if li = -1 then payload
  else payload.take li.toNat

/-! ## Record parsing and key derivation -/

/-- The function `getAsPublicKey(payload)`. -/
def getAsPublicKey (payload : Slice) : Outcome Slice :=
  if payload.len < 86 then .error .payloadTooShort
  else do
    let b ← index payload 20
    let publicKeyLength := b.val
    slice payload 21 (21 + publicKeyLength)

/-- What `io.ReadFull(r, buf)` finds on a fresh reader, as a function of
`len(buf)`: the bytes it could read and the error it reports. -/
abbrev Reader := Nat → Bytes × Option Error

/-- The call `io.ReadFull(r, buf)` on a buffer of `length` zero bytes: the
buffer afterwards (overwritten from the front by what was read), the count
read, and the error. -/
def ReadFull (r : Reader) (length : Nat) : Bytes × Nat × Option Error :=
  let got := ((r length).1).take length
  (got ++ List.replicate (length - got.length) (0 : Byte), got.length, (r length).2)

/-- The function `getHKDFKey(hkdf, length)`. -/
def getHKDFKey (hkdf : Reader) (length : Nat) : Bytes × Option Error :=
  let key := (ReadFull hkdf length).1
  let n := (ReadFull hkdf length).2.1
  let err := (ReadFull hkdf length).2.2
  if n ≠ key.length ∨ err ≠ none then (key, err)
  else (key, none)

structure PrivateKey where
  scalar : Bytes
  deriving DecidableEq

/-- An `*ecdh.PublicKey`: it keeps the encoding it was built from. -/
structure PublicKey where
  encoding : Bytes
  deriving DecidableEq

/-- The cryptographic library calls `DecryptMessage` makes. -/
structure Primitives where
  /-- The call `priv.PublicKey()`. -/
  publicKeyOf : PrivateKey → PublicKey
  /-- The validation in `ecdh.P256().NewPublicKey(b)`: its error, if any. -/
  checkPoint : Bytes → Option Error
  /-- The call `priv.ECDH(pub)`. -/
  ECDH : PrivateKey → PublicKey → Except Error Bytes
  /-- The call `hkdf.New(sha256.New, secret, salt, info)`. -/
  hkdfNew : Bytes → Bytes → Bytes → Reader
  /-- A `cipher.Block`. -/
  Block : Type
  /-- A `cipher.AEAD`. -/
  AEAD : Type
  /-- The call `aes.NewCipher(key)`. -/
  aesNewCipher : Bytes → Except Error Block
  /-- The call `cipher.NewGCM(block)`. -/
  newGCM : Block → Except Error AEAD
  /-- The call `gcm.Open(nil, nonce, ciphertext, nil)` for a 12-byte nonce. -/
  gcmOpen : AEAD → Bytes → Bytes → Except Error Bytes
  /-- The call `gcm.Seal(nil, nonce, plaintext, nil)` for a 12-byte nonce. -/
  gcmSeal : AEAD → Bytes → Bytes → Bytes
  /-- The call `base64.URLEncoding.WithPadding(base64.NoPadding).DecodeString(s)`;
  the slice it returns may have spare capacity. -/
  base64Decode : String → Except Error Slice

/-- The call `ecdh.P256().NewPublicKey(b)`. -/
def NewPublicKey (P : Primitives) (b : Bytes) : Outcome PublicKey :=
  match P.checkPoint b with
  | some e => .error e
  | none => .ok ⟨b⟩

/-- The call `gcm.Open(nil, nonce, ciphertext, nil)`; it panics on a nonce
that is not 12 bytes long. -/
def gcmOpenCall (P : Primitives) (gcm : P.AEAD) (nonce cipherText : Bytes) : Outcome Bytes :=
  if nonce.length ≠ 12 then .panic "crypto/cipher: incorrect nonce length given to GCM"
  else Outcome.ofExcept (P.gcmOpen gcm nonce cipherText)

/-- Go's `if err != nil { return nil, err }` after a call returning `(key, err)`. -/
def checked (r : Bytes × Option Error) : Outcome Bytes :=
  match r.2 with
  | some e => .error e
  | none => .ok r.1

structure Subscription where
  ChID : String
  VapID : String
  PushEndpoint : String
  Auth : Bytes
  ClientPrivate : PrivateKey
  deriving DecidableEq

def prkInfoLabel : Bytes := strBytes "WebPush: info\x00"

def contentEncryptionKeyInfo : Bytes := strBytes "Content-Encoding: aes128gcm\x00"

def nonceInfo : Bytes := strBytes "Content-Encoding: nonce\x00"

/-- The method `(s *Subscription) DecryptMessage(payload)`. -/
def DecryptMessage (P : Primitives) (s : Subscription) (payload : Slice) : Outcome Bytes := do
  -- ECDH
  let asPublicBytes ← getAsPublicKey payload
  let asPublic ← NewPublicKey P asPublicBytes.data
  let sharedSecret ← Outcome.ofExcept (P.ECDH s.ClientPrivate asPublic)
  let salt ← slice payload 0 16
  let cipherText ← sliceFrom payload (21 + asPublicBytes.len)
  -- derive key
  let prkInfo := prkInfoLabel ++ (P.publicKeyOf s.ClientPrivate).encoding ++ asPublic.encoding
  let prkHKDF := P.hkdfNew sharedSecret s.Auth prkInfo
  let ikm ← checked (getHKDFKey prkHKDF 32)
  let contentHKDF := P.hkdfNew ikm salt.data contentEncryptionKeyInfo
  let contentEncryptionKey ← checked (getHKDFKey contentHKDF 16)
  let nonceHKDF := P.hkdfNew ikm salt.data nonceInfo
  let nonce ← checked (getHKDFKey nonceHKDF 12)
  -- AES128GCM decrypt
  let c ← Outcome.ofExcept (P.aesNewCipher contentEncryptionKey)
  let gcm ← Outcome.ofExcept (P.newGCM c)
  let plainText ← gcmOpenCall P gcm nonce cipherText.data
  -- Remove padding
  let message := removePadding plainText 0x02
  return message

/-- Lines 239-246 and 251-295 of `DecryptMessage`, on the three pieces parsed
from the record: key agreement with the sender key, the key schedule with the
salt, opening the ciphertext, and padding removal. -/
def decryptPieces (P : Primitives) (s : Subscription) (salt senderKey cipherText : Bytes) :
    Outcome Bytes := do
  let asPublic ← NewPublicKey P senderKey
  let sharedSecret ← Outcome.ofExcept (P.ECDH s.ClientPrivate asPublic)
  let prkInfo := prkInfoLabel ++ (P.publicKeyOf s.ClientPrivate).encoding ++ asPublic.encoding
  let ikm ← checked (getHKDFKey (P.hkdfNew sharedSecret s.Auth prkInfo) 32)
  let contentEncryptionKey ← checked (getHKDFKey (P.hkdfNew ikm salt contentEncryptionKeyInfo) 16)
  let nonce ← checked (getHKDFKey (P.hkdfNew ikm salt nonceInfo) 12)
  let c ← Outcome.ofExcept (P.aesNewCipher contentEncryptionKey)
  let gcm ← Outcome.ofExcept (P.newGCM c)
  let plainText ← gcmOpenCall P gcm nonce cipherText
  return removePadding plainText 0x02

/-! ## JSON frames -/

/-- A value inside a decoded `map[string]interface{}`. Arrays and objects are
never looked into by the program. -/
inductive JVal
  | null
  | bool (b : Bool)
  | num (q : Rat)
  | str (s : String)
  | compound
  deriving DecidableEq

/-- A decoded `map[string]interface{}`; the nil map is the empty list. -/
abbrev JObj := List (String × JVal)

/-- The panic message of a failed `.(string)`. -/
def notString : String := "interface conversion: interface is not string"

/-- The panic message of a failed `.(float64)`. -/
def notFloat64 : String := "interface conversion: interface is not float64"

/-- The panic message of a method call on a nil `*websocket.Conn`. -/
def nilConn : String := "invalid memory address or nil pointer dereference"

/-- Type assertion `m[key].(string)`: panics unless the key holds a string. -/
def assertString (v : Option JVal) : Outcome String :=
  match v with
  | some (.str s) => .ok s
  | _ => .panic notString

/-- Type assertion `m[key].(float64)`: panics unless the key holds a number. -/
def assertFloat64 (v : Option JVal) : Outcome Rat :=
  match v with
  | some (.num q) => .ok q
  | _ => .panic notFloat64

/-- A text frame together with what `json.Unmarshal(raw, &m)` makes of it:
the map `m` afterwards and the error returned. On a syntax error the map is
still nil; on a value error (a number out of range) it is filled all the
same. -/
structure Frame where
  raw : String
  decoded : JObj
  unmarshalError : Option Error

/-! ## The user agent and its transport -/

abbrev Conn := Nat

/-- What the program does to the outside world. -/
inductive Event
  /-- A call of `websocket.DefaultDialer.Dial`. -/
  | dial
  /-- The hello message handed to `WriteMessage`; `uaid` is omitted when empty. -/
  | hello (uaid : Option String)
  /-- The register message handed to `WriteMessage`. -/
  | register (channelID : String) (key : String)
  /-- A call of `conn.Close()`. -/
  | close (conn : Conn)
  /-- The line written by `fmt.Printf("%s\n", dec)`. -/
  | print (dec : Bytes)
  deriving DecidableEq

structure UserAgent where
  PushServiceHost : String
  UAID : String
  Subscriptions : List Subscription
  deriving DecidableEq

/-- The user agent together with the record of its dealings with the world:
how many dials were made so far, and the events in order. -/
structure State where
  ua : UserAgent
  dials : Nat
  trace : List Event
  deriving DecidableEq

def State.emit (st : State) (e : Event) : State :=
  { st with trace := st.trace ++ [e] }

def State.setUAID (st : State) (uaid : String) : State :=
  { st with ua := { st.ua with UAID := uaid } }

/-- How the push service behaves on one connect attempt. -/
inductive Attempt
  /-- The call `Dial` returns an error. -/
  | dialFails (e : Error)
  /-- The call `json.Marshal(hello)` returns an error. -/
  | marshalFails (e : Error)
  /-- The call `conn.WriteMessage` returns an error. -/
  | writeFails (e : Error)
  /-- The call `conn.ReadMessage` returns an error. -/
  | readFails (e : Error)
  /-- The call `conn.ReadMessage` returns this frame. -/
  | response (f : Frame)

def retry : Nat := 5

/-- The `uaid` field of the hello message under `json:"uaid,omitempty"`. -/
def helloUAID (uaid : String) : Option String :=
  if uaid = "" then none else some uaid

/-- The statement `return nil, err`. -/
def returnNil (err : Option Error) : Outcome (Option Conn) :=
  match err with
  | none => .ok none
  | some e => .error e

/-- The `for` loop of `connectPushService` with `remaining` iterations to go.
`err` is the function-level variable `var err error`; every `err` written in
the body is the one declared by `conn, _, err := ...Dial(...)` inside the
loop (the value `Error.didNotReceiveHello` of the not-hello branch included),
so `err` here is handed on unchanged. The behaviour of attempt number
`st.dials` is `script st.dials`. -/
def connectLoop (script : Nat → Attempt) (err : Option Error) :
    Nat → State → Outcome (Option Conn) × State
  | 0, st => (returnNil err, st)
  | remaining + 1, st =>
    let conn : Conn := st.dials
    let st := { st with dials := st.dials + 1 }.emit .dial
    match script conn with
    | .dialFails _ => connectLoop script err remaining st
    | .marshalFails _ => connectLoop script err remaining (st.emit (.close conn))
    | .writeFails _ =>
      connectLoop script err remaining
        ((st.emit (.hello (helloUAID st.ua.UAID))).emit (.close conn))
    | .readFails _ =>
      connectLoop script err remaining
        ((st.emit (.hello (helloUAID st.ua.UAID))).emit (.close conn))
    | .response f =>
      let st := st.emit (.hello (helloUAID st.ua.UAID))
      match f.unmarshalError with
      | some _ => connectLoop script err remaining (st.emit (.close conn))
      | none =>
        match assertString (f.decoded.lookup "messageType") with
        | .panic w => (.panic w, st)
        | .error e => (.error e, st)
        | .ok messageType =>
          if messageType ≠ "hello" then connectLoop script err remaining st
          else
            match assertString (f.decoded.lookup "uaid") with
            | .panic w => (.panic w, st)
            | .error e => (.error e, st)
            | .ok uaid => (.ok (some conn), st.setUAID uaid)

/-- The method `(ua *UserAgent) connectPushService()`. -/
def connectPushService (script : Nat → Attempt) (st : State) :
    Outcome (Option Conn) × State :=
  connectLoop script none (retry + 1) st

/-- What the world supplies to one call of `registerSubscription`. -/
structure RegisterEnv where
  /-- The value of `uuid.New().String()`. -/
  chID : String
  /-- The error of `json.Marshal(reg)`, if any. -/
  marshal : Option Error
  /-- The result of `conn.ReadMessage()`. -/
  read : Except Error Frame
  /-- The reader `rand.Reader`. -/
  rand : Reader
  /-- The result of `ecdh.P256().GenerateKey(rand.Reader)`. -/
  generateKey : Except Error PrivateKey

/-- The method `(ua *UserAgent) registerSubscription(conn, vapID)`. -/
def registerSubscription (env : RegisterEnv) (conn : Option Conn) (vapID : String)
    (st : State) : Outcome Subscription × State :=
  let chID := env.chID
  match env.marshal with
  | some e => (.error e, st)
  | none =>
    match conn with
    | none => (.panic nilConn, st)
    | some _ =>
      let st := st.emit (.register chID vapID)
      match env.read with
      | .error e => (.error e, st)
      | .ok r =>
        match r.unmarshalError with
        | some e => (.error e, st)
        | none =>
          let reply : JObj := r.decoded
          let valid : Outcome Bool := do
            let messageType ← assertString (reply.lookup "messageType")
            if messageType = "register" then
              let status ← assertFloat64 (reply.lookup "status")
              pure (decide (status = 200))
            else pure false
          match valid with
          | .panic w => (.panic w, st)
          | .error e => (.error e, st)
          | .ok false => (.error (.failedToRegister r.raw), st)
          | .ok true =>
            match assertString (reply.lookup "pushEndpoint") with
            | .panic w => (.panic w, st)
            | .error e => (.error e, st)
            | .ok pushEndpoint =>
              let auth := (ReadFull env.rand 16).1
              match (ReadFull env.rand 16).2.2 with
              | some e => (.error e, st)
              | none =>
                match env.generateKey with
                | .error e => (.error e, st)
                | .ok privateKey =>
                  let s : Subscription :=
                    { ChID := chID, VapID := vapID, PushEndpoint := pushEndpoint,
                      Auth := auth, ClientPrivate := privateKey }
                  (.ok s, { st with ua := { st.ua with
                      Subscriptions := st.ua.Subscriptions ++ [s] } })

/-- The loop `for _, s := range ua.Subscriptions` of `ReadMessages` on the
decoded frame `m`: the bytes it prints, if it prints. -/
def deliver (P : Primitives) (m : JObj) : List Subscription → Outcome (Option Bytes)
  | [] => .ok none
  | s :: rest =>
    match assertString (m.lookup "channelID") with
    | .panic w => .panic w
    | .error e => .error e
    | .ok channelID =>
      if s.ChID = channelID then
        match assertString (m.lookup "data") with
        | .panic w => .panic w
        | .error e => .error e
        | .ok text =>
          match P.base64Decode text with
          | .error _ => .ok none
          | .ok data =>
            match DecryptMessage P s data with
            | .panic w => .panic w
            | .error _ => .ok none
            | .ok dec => .ok (some dec)
      else deliver P m rest

/-- The body of the loop of `ReadMessages` once a frame has been read. The
error of `json.Unmarshal` is dropped and the map is used as it stands.
`Debug` prints nothing (`IS_DEBUG = false`). -/
def handleMessage (P : Primitives) (f : Frame) (st : State) : Outcome Unit × State :=
  let m : JObj := f.decoded
  match m.lookup "messageType" with
  | none => (.ok (), st)
  | some t =>
    match assertString (some t) with
    | .panic w => (.panic w, st)
    | .error e => (.error e, st)
    | .ok messageType =>
      if messageType = "notification" then
        match deliver P m st.ua.Subscriptions with
        | .panic w => (.panic w, st)
        | .error e => (.error e, st)
        | .ok none => (.ok (), st)
        | .ok (some dec) => (.ok (), st.emit (.print dec))
      else (.ok (), st)

/-- What `conn.ReadMessage()` yields in the loop of `ReadMessages`. -/
inductive ReadEvent
  | message (f : Frame)
  | readError (e : Error)

/-- Where `ReadMessages` stands after the reads supplied so far. -/
inductive LoopResult
  /-- The function returned this error value. -/
  | returned (err : Option Error)
  /-- The function panicked. -/
  | panicked (why : String)
  /-- The loop is blocked in `conn.ReadMessage()` on this connection. -/
  | reading (conn : Conn)
  deriving DecidableEq

/-- The method `(ua *UserAgent) ReadMessages(conn)`, run on the results of its
successive `conn.ReadMessage()` calls. On a nil `conn` the call
`conn.ReadMessage()` panics at once. -/
def ReadMessages (P : Primitives) (script : Nat → Attempt) :
    List ReadEvent → Option Conn → State → LoopResult × State
  | _, none, st => (.panicked nilConn, st)
  | [], some c, st => (.reading c, st)
  | .readError _ :: rest, some c, st =>
    match connectPushService script (st.emit (.close c)) with
    | (.panic w, st) => (.panicked w, st)
    | (.error err2, st) => (.returned (some err2), st)
    | (.ok conn, st) => ReadMessages P script rest conn st
  | .message f :: rest, some c, st =>
    match handleMessage P f st with
    | (.panic w, st) => (.panicked w, st)
    | (_, st) => ReadMessages P script rest (some c) st

/-! ## The sender's side and a stand-in library -/

/-- The `n` bytes of output of an HKDF instance, when it yields them. -/
def hkdfOutput (r : Reader) (n : Nat) : Option Bytes :=
  if (r n).2 = none ∧ (r n).1.length = n then some (r n).1 else none

/-- The bytes of "WebPush: info" followed by a zero byte. -/
def webPushInfo : Bytes :=
  [0x57, 0x65, 0x62, 0x50, 0x75, 0x73, 0x68, 0x3a, 0x20, 0x69, 0x6e, 0x66, 0x6f, 0x00]

/-- The bytes of "Content-Encoding: aes128gcm" followed by a zero byte. -/
def aes128gcmInfo : Bytes :=
  [0x43, 0x6f, 0x6e, 0x74, 0x65, 0x6e, 0x74, 0x2d, 0x45, 0x6e, 0x63, 0x6f, 0x64, 0x69,
   0x6e, 0x67, 0x3a, 0x20, 0x61, 0x65, 0x73, 0x31, 0x32, 0x38, 0x67, 0x63, 0x6d, 0x00]

/-- The bytes of "Content-Encoding: nonce" followed by a zero byte. -/
def nonceLabel : Bytes :=
  [0x43, 0x6f, 0x6e, 0x74, 0x65, 0x6e, 0x74, 0x2d, 0x45, 0x6e, 0x63, 0x6f, 0x64, 0x69,
   0x6e, 0x67, 0x3a, 0x20, 0x6e, 0x6f, 0x6e, 0x63, 0x65, 0x00]

/-- The record a sender builds, following the specification's wording and
written from the library calls alone: ECDH between the sender's private key
and the client's public key; the 32-byte intermediate key is the HKDF output
for that secret, the auth secret as salt and info
"WebPush: info\0" ‖ client public ‖ sender public; the 16-byte
content-encryption key and the 12-byte nonce are the HKDF outputs for the
intermediate key, the record salt and the infos "Content-Encoding: aes128gcm\0"
and "Content-Encoding: nonce\0"; the record is
salt ‖ record size ‖ 65 ‖ sender public ‖ seal(m ‖ 0x02 ‖ k zero bytes). -/
def senderRecord (P : Primitives) (clientPublic : Bytes) (senderPrivate : PrivateKey)
    (auth salt recordSize m : Bytes) (k : Nat) : Option Bytes :=
  match P.ECDH senderPrivate ⟨clientPublic⟩ with
  | .error _ => none
  | .ok sharedSecret =>
    let senderPublic := (P.publicKeyOf senderPrivate).encoding
    match hkdfOutput (P.hkdfNew sharedSecret auth (webPushInfo ++ clientPublic ++ senderPublic))
        32 with
    | none => none
    | some ikm =>
      match hkdfOutput (P.hkdfNew ikm salt aes128gcmInfo) 16,
          hkdfOutput (P.hkdfNew ikm salt nonceLabel) 12 with
      | some cek, some nonce =>
        match P.aesNewCipher cek with
        | .error _ => none
        | .ok block =>
          match P.newGCM block with
          | .error _ => none
          | .ok gcm =>
            some (salt ++ recordSize ++ [65] ++ senderPublic
              ++ P.gcmSeal gcm nonce (m ++ [0x02] ++ List.replicate k (0x00 : Byte)))
      | _, _ => none

/-- A small stand-in for the cryptographic library, on which the definitions
can be run: public keys are 65 copies of the scalar's first byte, the shared
secret is the sum of the two first bytes, HKDF repeats one byte made from its
secret, salt and info, sealing appends a 16-byte tag of the key's first byte and opening
checks and strips it. -/
def standIn : Primitives where
  publicKeyOf k := ⟨List.replicate 65 (k.scalar.headD 0)⟩
  checkPoint b := if b.length = 65 then none else some (.library 1)
  ECDH k q := .ok [k.scalar.headD 0 + q.encoding.headD 0]
  hkdfNew secret salt info :=
    fun n => (List.replicate n (secret.headD 0 + salt.headD 0 + info.headD 0
      + Fin.ofNat info.length), none)
  Block := Bytes
  AEAD := Bytes
  aesNewCipher key := if key.length = 16 then .ok key else .error (.library 2)
  newGCM b := .ok b
  gcmOpen g _ ct :=
    if ct.drop (ct.length - 16) = List.replicate 16 (g.headD 0) then
      .ok (ct.take (ct.length - 16))
    else .error (.library 3)
  gcmSeal g _ pt := pt ++ List.replicate 16 (g.headD 0)
  base64Decode text :=
    if text.all Char.isAlphanum then .ok ⟨strBytes text, []⟩ else .error (.library 4)

/-! ## Classes of connect attempts -/

/-- An attempt that fails in one of the ways the loop of `connectPushService`
answers with `continue`: the dial, the marshalling, the write or the read
fails, the response is not valid JSON, or its `messageType` is a string other
than "hello". -/
def Attempt.fails : Attempt → Bool
  | .response f =>
    match f.unmarshalError with
    | some _ => true
    | none =>
      match f.decoded.lookup "messageType" with
      | some (.str t) => decide (t ≠ "hello")
      | _ => false
  | _ => true

/-- An attempt that succeeds, with the `uaid` its hello response carries: the
response decodes, its `messageType` is "hello" and its `uaid` is a string. -/
def Attempt.succeedsWith : Attempt → Option String
  | .response f =>
    match f.unmarshalError with
    | some _ => none
    | none =>
      match f.decoded.lookup "messageType", f.decoded.lookup "uaid" with
      | some (.str t), some (.str u) => if t = "hello" then some u else none
      | _, _ => none
  | _ => none

/-- The state after one iteration of the loop on a failing attempt. -/
def afterFailure (a : Attempt) (st : State) : State :=
  let conn : Conn := st.dials
  let st := { st with dials := st.dials + 1 }.emit .dial
  match a with
  | .dialFails _ => st
  | .marshalFails _ => st.emit (.close conn)
  | .writeFails _ => (st.emit (.hello (helloUAID st.ua.UAID))).emit (.close conn)
  | .readFails _ => (st.emit (.hello (helloUAID st.ua.UAID))).emit (.close conn)
  | .response f =>
    match f.unmarshalError with
    | some _ => (st.emit (.hello (helloUAID st.ua.UAID))).emit (.close conn)
    | none => st.emit (.hello (helloUAID st.ua.UAID))

/-- The state after the iteration of the loop on a successful attempt whose
response carries `uaid`. -/
def afterSuccess (uaid : String) (st : State) : State :=
  ((({ st with dials := st.dials + 1 }.emit .dial).emit
    (.hello (helloUAID st.ua.UAID))).setUAID uaid)

/-! ## Sample frames and scripts -/

/-- A hello response assigning `uaid`. -/
def helloFrame (uaid : String) : Frame :=
  { raw := "hello", decoded := [("messageType", .str "hello"), ("uaid", .str uaid),
      ("status", .num 200)], unmarshalError := none }

/-- A user agent as `main` creates it. -/
def freshState : State :=
  { ua := { PushServiceHost := "push.services.mozilla.com", UAID := "", Subscriptions := [] },
    dials := 0, trace := [] }

/-- The push service refuses every dial. -/
def unreachableService : Nat → Attempt := fun _ => .dialFails (.library 7)

/-- The push service assigns "X" on the first connect and "Y" on every later one. -/
def reassigningService : Nat → Attempt
  | 0 => .response (helloFrame "X")
  | _ => .response (helloFrame "Y")

/-- The push service assigns the empty string as session id. -/
def emptyIdService : Nat → Attempt := fun _ => .response (helloFrame "")

/-- A frame whose `messageType` is the number 5. -/
def numericTypeFrame : Frame :=
  { raw := "\x7b\"messageType\":5\x7d", decoded := [("messageType", .num 5)],
    unmarshalError := none }

/-- A notification frame without `channelID`. -/
def noChannelFrame : Frame :=
  { raw := "\x7b\"messageType\":\"notification\"\x7d",
    decoded := [("messageType", .str "notification")], unmarshalError := none }

/-- A subscription as `registerSubscription` would have stored it. -/
def sampleSubscription : Subscription :=
  { ChID := "c1", VapID := "v", PushEndpoint := "https://push.example/1",
    Auth := List.replicate 16 9, ClientPrivate := ⟨[1]⟩ }

/-- A register response with status 200 and an endpoint but no `messageType`. -/
def untypedRegisterFrame : Frame :=
  { raw := "\x7b\"status\":200,\"pushEndpoint\":\"https://push.example/1\"\x7d",
    decoded := [("status", .num 200), ("pushEndpoint", .str "https://push.example/1")],
    unmarshalError := none }

/-- A register response with the right `messageType` but no `status`. -/
def statuslessRegisterFrame : Frame :=
  { raw := "\x7b\"messageType\":\"register\"\x7d",
    decoded := [("messageType", .str "register")], unmarshalError := none }

/-- The world around one `registerSubscription` call that reads frame `f`. -/
def registerEnv (f : Frame) : RegisterEnv :=
  { chID := "c1", marshal := none, read := .ok f,
    rand := fun n => (List.replicate n 9, none), generateKey := .ok ⟨[1]⟩ }

/-- The push service answers every connect with a hello carrying "X". -/
def echoingService : Nat → Attempt := fun _ => .response (helloFrame "X")

/-- The state `main` is in once the first connect has stored "X" and one
subscription has been registered. -/
def listeningState : State :=
  { ua := { PushServiceHost := "push.services.mozilla.com", UAID := "X",
            Subscriptions := [sampleSubscription] },
    dials := 1, trace := [.dial, .hello none, .register "c1" "v"] }

/-- What a stretch of a run preserves while the service echoes the id `X`:
the stored id is `X`, the dial counter did not go back, and every hello
message written in the stretch carries `X`. -/
def Echoed (X : String) (st st' : State) : Prop :=
  st'.ua.UAID = X ∧ st.dials ≤ st'.dials ∧
    ∃ extra, st'.trace = st.trace ++ extra ∧
      ∀ e ∈ extra, ∀ u, e = Event.hello u → u = some X

/-! ## General lemmas -/

namespace Outcome

@[simp] theorem ok_bind {α β : Type} (v : α) (f : α → Outcome β) :
    (Outcome.ok v >>= f) = f v := rfl

@[simp] theorem error_bind {α β : Type} (e : Error) (f : α → Outcome β) :
    (Outcome.error e >>= f) = Outcome.error e := rfl

@[simp] theorem panic_bind {α β : Type} (w : String) (f : α → Outcome β) :
    (Outcome.panic w >>= f) = Outcome.panic w := rfl

@[simp] theorem pure_eq {α : Type} (v : α) : (pure v : Outcome α) = Outcome.ok v := rfl

theorem bind_eq_ok {α β : Type} (x : Outcome α) (f : α → Outcome β) (b : β) :
    (x >>= f) = Outcome.ok b ↔ ∃ a, x = Outcome.ok a ∧ f a = Outcome.ok b := by
  cases x <;> simp

end Outcome

/-! ## Padding removal -/

theorem lastIndexBelow_absent (s : Bytes) (c : Byte) (n : Nat)
    (h : ∀ j, j < n → s[j]? ≠ some c) : lastIndexBelow s c n = -1 := by
  induction n with
  | zero => rfl
  | succ i ih =>
    have hi : s[i]? ≠ some c := h i (Nat.lt_succ_self i)
    simp only [lastIndexBelow, hi, if_false]
    exact ih (fun j hj => h j (Nat.lt_succ_of_lt hj))

theorem lastIndexBelow_last (s : Bytes) (c : Byte) (i n : Nat) (hin : i < n)
    (hi : s[i]? = some c) (h : ∀ j, i < j → j < n → s[j]? ≠ some c) :
    lastIndexBelow s c n = (i : Int) := by
  induction n with
  | zero => omega
  | succ k ih =>
    by_cases hk : i = k
    · subst hk
      simp [lastIndexBelow, hi]
    · have hlt : i < k := by omega
      have hne : s[k]? ≠ some c := h k hlt (Nat.lt_succ_self k)
      simp only [lastIndexBelow, hne, if_false]
      exact ih hlt (fun j h1 h2 => h j h1 (Nat.lt_succ_of_lt h2))

theorem getElem?_ne_of_not_mem (b : Bytes) (c : Byte) (h : c ∉ b) (j : Nat) :
    b[j]? ≠ some c := by
  intro hj
  exact h (List.getElem?_mem hj)

theorem LastIndexByte_absent (p : Bytes) (c : Byte) (h : c ∉ p) :
    LastIndexByte p c = -1 :=
  lastIndexBelow_absent p c p.length (fun j _ => getElem?_ne_of_not_mem p c h j)

theorem LastIndexByte_split (a b : Bytes) (c : Byte) (h : c ∉ b) :
    LastIndexByte (a ++ c :: b) c = (a.length : Int) := by
  apply lastIndexBelow_last
  · simp
  · rw [List.getElem?_append_right (Nat.le_refl _)]
    simp
  · intro j hj _
    have hsplit : (a ++ c :: b)[j]? = b[j - a.length - 1]? := by
      rw [List.getElem?_append_right (Nat.le_of_lt hj)]
      obtain ⟨d, hd⟩ : ∃ d, j - a.length = d + 1 := ⟨j - a.length - 1, by omega⟩
      rw [hd]
      simp
    rw [hsplit]
    exact getElem?_ne_of_not_mem b c h _

theorem removePadding_absent (p : Bytes) (c : Byte) (h : c ∉ p) :
    removePadding p c = p := by
  simp [removePadding, LastIndexByte_absent p c h]

theorem removePadding_split (a b : Bytes) (c : Byte) (h : c ∉ b) :
    removePadding (a ++ c :: b) c = a := by
  have hne : ((a.length : Int) = -1) = False := by
    apply eq_false
    omega
  simp [removePadding, LastIndexByte_split a b c h, hne]

theorem exists_last_split (c : Byte) (p : Bytes) (h : c ∈ p) :
    ∃ a b, p = a ++ c :: b ∧ c ∉ b := by
  induction p with
  | nil => exact absurd h (List.not_mem_nil c)
  | cons x xs ih =>
    by_cases hxs : c ∈ xs
    · obtain ⟨a, b, hab, hb⟩ := ih hxs
      exact ⟨x :: a, b, by rw [hab, List.cons_append], hb⟩
    · have hx : c = x := by
        rcases List.mem_cons.mp h with h1 | h1
        · exact h1
        · exact absurd h1 hxs
      exact ⟨[], xs, by rw [hx, List.nil_append], hxs⟩

/-- C4. `removePadding(p, 0x02)` is `p` when `p` holds no 0x02 byte; otherwise
`p` is `a ‖ 0x02 ‖ b` with no 0x02 in `b` (this 0x02 is the last one) and the
result is the prefix `a`, whichever such split is taken; hence data followed
by 0x02 and any number of zero bytes gives back the data, and
"hi" ‖ 0x02 ‖ 0x00 0x00 gives "hi". -/
theorem removePadding_spec :
    (∀ p : Bytes, (0x02 : Byte) ∉ p → removePadding p 0x02 = p) ∧
    (∀ p : Bytes, (0x02 : Byte) ∈ p →
      ∃ a b : Bytes, p = a ++ [0x02] ++ b ∧ (0x02 : Byte) ∉ b ∧ removePadding p 0x02 = a) ∧
    (∀ a b : Bytes, (0x02 : Byte) ∉ b → removePadding (a ++ [0x02] ++ b) 0x02 = a) ∧
    (∀ (d : Bytes) (k : Nat),
      removePadding (d ++ [0x02] ++ List.replicate k (0x00 : Byte)) 0x02 = d) ∧
    removePadding [0x68, 0x69, 0x02, 0x00, 0x00] 0x02 = [0x68, 0x69] := by
  refine ⟨fun p h => removePadding_absent p _ h, ?_, ?_, ?_, ?_⟩
  · intro p h
    obtain ⟨a, b, hab, hb⟩ := exists_last_split _ p h
    refine ⟨a, b, by rw [hab, List.append_assoc, List.singleton_append], hb, ?_⟩
    rw [hab]
    exact removePadding_split a b _ hb
  · intro a b h
    rw [List.append_assoc, List.singleton_append]
    exact removePadding_split a b _ h
  · intro d k
    rw [List.append_assoc, List.singleton_append]
    apply removePadding_split
    intro hmem
    have := List.eq_of_mem_replicate hmem
    exact absurd this (by decide)
  · decide

/-- C4 at concrete inputs: a buffer without 0x02, and one where 0x02 occurs
twice (the cut is made at the second). -/
theorem removePadding_spec_witness :
    removePadding [0x68, 0x69] 0x02 = [0x68, 0x69] ∧
    removePadding ([0x01, 0x02, 0x03] ++ [0x02] ++ [0x00, 0x07]) 0x02 = [0x01, 0x02, 0x03] :=
  ⟨removePadding_spec.1 [0x68, 0x69] (by decide),
   removePadding_spec.2.2.1 [0x01, 0x02, 0x03] [0x00, 0x07] (by decide)⟩

/-! ## Record parsing -/

theorem getAsPublicKey_short (payload : Slice) (h : payload.len < 86) :
    getAsPublicKey payload = .error .payloadTooShort := by
  simp [getAsPublicKey, h]

theorem getAsPublicKey_in_cap (payload : Slice) (b : Byte) (hlen : 86 ≤ payload.len)
    (hb : payload.data[20]? = some b) (hcap : 21 + b.val ≤ payload.cap) :
    getAsPublicKey payload
      = .ok ⟨((payload.data ++ payload.spare).take (21 + b.val)).drop 21,
          (payload.data ++ payload.spare).drop (21 + b.val)⟩ := by
  have h86 : ¬ payload.len < 86 := by omega
  simp [getAsPublicKey, h86, index, hb, slice, hcap]

theorem getAsPublicKey_overrun (payload : Slice) (b : Byte) (hlen : 86 ≤ payload.len)
    (hb : payload.data[20]? = some b) (hover : payload.cap < 21 + b.val) :
    getAsPublicKey payload = .panic "slice bounds out of range" := by
  have h86 : ¬ payload.len < 86 := by omega
  have hno : ¬ 21 + b.val ≤ payload.cap := by omega
  simp [getAsPublicKey, h86, index, hb, slice, hno]

theorem record_split (p : Bytes) (b : Byte) (hb : p[20]? = some b) :
    p.take 16 ++ (p.take 20).drop 16 ++ [b] ++ (p.take (21 + b.val)).drop 21
      ++ p.drop (21 + b.val) = p := by
  obtain ⟨h20, hget⟩ := List.getElem?_eq_some.mp hb
  have hd20 : p.drop 20 = b :: p.drop 21 := by
    rw [List.drop_eq_getElem_cons h20, hget]
  have h1 : (p.take 20).drop 16 ++ p.drop 20 = p.drop 16 := by
    rw [List.drop_take]
    have : p.drop 20 = (p.drop 16).drop 4 := by rw [List.drop_drop]
    rw [this]
    exact List.take_append_drop _ _
  have h2 : (p.take (21 + b.val)).drop 21 ++ p.drop (21 + b.val) = p.drop 21 := by
    rw [List.drop_take]
    have : p.drop (21 + b.val) = (p.drop 21).drop b.val := by
      rw [List.drop_drop, Nat.add_comm]
    rw [this, Nat.add_sub_cancel_left]
    exact List.take_append_drop _ _
  calc p.take 16 ++ (p.take 20).drop 16 ++ [b] ++ (p.take (21 + b.val)).drop 21
        ++ p.drop (21 + b.val)
      = p.take 16 ++ ((p.take 20).drop 16 ++ (b :: ((p.take (21 + b.val)).drop 21
        ++ p.drop (21 + b.val)))) := by simp [List.append_assoc]
    _ = p.take 16 ++ ((p.take 20).drop 16 ++ p.drop 20) := by rw [h2, hd20]
    _ = p := by rw [h1]; exact List.take_append_drop _ _

theorem length_key (payload : Bytes) (n : Nat) (hfit : 21 + n ≤ payload.length) :
    ((payload.take (21 + n)).drop 21).length = n := by
  simp only [List.length_drop, List.length_take]
  omega

theorem getAsPublicKey_fits (payload : Slice) (b : Byte) (hlen : 86 ≤ payload.len)
    (hb : payload.data[20]? = some b) (hfit : 21 + b.val ≤ payload.len) :
    ∃ k : Slice, getAsPublicKey payload = .ok k ∧
      k.data = (payload.data.take (21 + b.val)).drop 21 ∧ k.len = b.val := by
  have hfit' : 21 + b.val ≤ payload.data.length := hfit
  have hcap : 21 + b.val ≤ payload.cap := by
    unfold Slice.cap
    omega
  refine ⟨_, getAsPublicKey_in_cap payload b hlen hb hcap, ?_, ?_⟩
  · simp only [List.take_append_of_le_length hfit']
  · simp only [Slice.len, List.take_append_of_le_length hfit']
    exact length_key payload.data b.val hfit'

theorem slice_salt (payload : Slice) (hlen : 16 ≤ payload.len) :
    ∃ sl : Slice, slice payload 0 16 = .ok sl ∧ sl.data = payload.data.take 16 := by
  have hlen' : 16 ≤ payload.data.length := hlen
  have hcap : 16 ≤ payload.cap := by
    unfold Slice.cap
    omega
  refine ⟨⟨((payload.data ++ payload.spare).take 16).drop 0,
    (payload.data ++ payload.spare).drop 16⟩, by simp [slice, hcap], ?_⟩
  simp only [List.drop_zero, List.take_append_of_le_length hlen']

theorem sliceFrom_rest (payload : Slice) (lo : Nat) (h : lo ≤ payload.len) :
    sliceFrom payload lo = .ok ⟨payload.data.drop lo, payload.spare⟩ := by
  simp [sliceFrom, h]

/-- With the record's three pieces in range, `DecryptMessage` is the rest of
its pipeline run on the salt `payload[0:16]`, the key `payload[21:21+n]` and
the ciphertext `payload[21+n:]`. -/
theorem DecryptMessage_pieces (P : Primitives) (s : Subscription) (payload : Slice)
    (n : Byte) (hlen : 86 ≤ payload.len) (hn : payload.data[20]? = some n)
    (hfit : 21 + n.val ≤ payload.len) :
    DecryptMessage P s payload
      = decryptPieces P s (payload.data.take 16) ((payload.data.take (21 + n.val)).drop 21)
          (payload.data.drop (21 + n.val)) := by
  obtain ⟨k, hk, hkd, hkl⟩ := getAsPublicKey_fits payload n hlen hn hfit
  obtain ⟨sl, hsl, hsd⟩ := slice_salt payload (by omega)
  have hfrom := sliceFrom_rest payload (21 + n.val) hfit
  simp only [DecryptMessage, decryptPieces, hk, hsl, Outcome.ok_bind, hkd, hsd, hkl, hfrom]

/-- C2. A payload shorter than 86 bytes, whatever its content and capacity:
`getAsPublicKey` returns the too-short error and `DecryptMessage` returns that
same error and no plaintext, whatever the subscription and whatever the
cryptographic library would have answered (none of its calls is reached). -/
theorem DecryptMessage_minimum_length (P : Primitives) (s : Subscription) (payload : Slice)
    (h : payload.len < 86) :
    getAsPublicKey payload = .error .payloadTooShort ∧
    DecryptMessage P s payload = .error .payloadTooShort := by
  refine ⟨getAsPublicKey_short payload h, ?_⟩
  simp [DecryptMessage, getAsPublicKey_short payload h]

/-- C2 on the 10-byte all-zero buffer. -/
theorem DecryptMessage_minimum_length_witness :
    getAsPublicKey ⟨List.replicate 10 (0 : Byte), []⟩ = .error .payloadTooShort ∧
    DecryptMessage standIn ⟨"c", "v", "e", [], ⟨[1]⟩⟩ ⟨List.replicate 10 (0 : Byte), []⟩
      = .error .payloadTooShort :=
  DecryptMessage_minimum_length standIn ⟨"c", "v", "e", [], ⟨[1]⟩⟩
    ⟨List.replicate 10 (0 : Byte), []⟩ (by decide)

/-- C3 (what the code does). A payload of at least 86 bytes whose key-id length
byte `n = payload[20]` makes `21 + n` exceed the payload length.
`getAsPublicKey` never returns an error value. When `21 + n` also exceeds the
capacity (as for a buffer whose capacity is its length), `getAsPublicKey`
panics on its slice expression and so does `DecryptMessage`. When the buffer
has that much spare capacity, `getAsPublicKey` returns `n` bytes that run past
the end of the payload into the spare bytes, `DecryptMessage` hands them to
the library as the sender key, and if key agreement succeeds it panics on the
ciphertext slice expression. -/
theorem getAsPublicKey_overrun_panics (P : Primitives) (s : Subscription) (payload : Slice)
    (b : Byte) (hlen : 86 ≤ payload.len) (hb : payload.data[20]? = some b)
    (hover : payload.len < 21 + b.val) :
    (∀ e, getAsPublicKey payload ≠ .error e) ∧
    (payload.cap < 21 + b.val →
      getAsPublicKey payload = .panic "slice bounds out of range" ∧
      DecryptMessage P s payload = .panic "slice bounds out of range") ∧
    (21 + b.val ≤ payload.cap →
      ∃ key : Slice, getAsPublicKey payload = .ok key ∧
        key.data = payload.data.drop 21 ++ payload.spare.take (21 + b.val - payload.len) ∧
        key.len = b.val ∧ payload.len - 21 < key.len ∧
        DecryptMessage P s payload
          = (NewPublicKey P key.data >>= fun asPublic =>
              Outcome.ofExcept (P.ECDH s.ClientPrivate asPublic) >>= fun _ =>
                Outcome.panic "slice bounds out of range")) := by
  have hlen' : 86 ≤ payload.data.length := hlen
  have hover' : payload.data.length < 21 + b.val := hover
  have hpanic : payload.cap < 21 + b.val →
      getAsPublicKey payload = .panic "slice bounds out of range" :=
    getAsPublicKey_overrun payload b hlen hb
  have hok := getAsPublicKey_in_cap payload b hlen hb
  refine ⟨?_, ?_, ?_⟩
  · intro e he
    by_cases hcap : 21 + b.val ≤ payload.cap
    · rw [hok hcap] at he
      exact absurd he (by simp)
    · rw [hpanic (by omega)] at he
      exact absurd he (by simp)
  · intro hcap
    refine ⟨hpanic hcap, ?_⟩
    simp [DecryptMessage, hpanic hcap]
  · intro hcap
    have hcap' : 21 + b.val ≤ payload.data.length + payload.spare.length := hcap
    have hdata : ((payload.data ++ payload.spare).take (21 + b.val)).drop 21
        = payload.data.drop 21 ++ payload.spare.take (21 + b.val - payload.len) := by
      rw [List.take_append_eq_append_take, List.take_of_length_le (Nat.le_of_lt hover'),
        List.drop_append_of_le_length (by omega)]
      rfl
    have hklen : (((payload.data ++ payload.spare).take (21 + b.val)).drop 21).length
        = b.val := by
      simp only [List.length_drop, List.length_take, List.length_append]
      omega
    have hsalt : slice payload 0 16 = .ok ⟨((payload.data ++ payload.spare).take 16).drop 0,
        (payload.data ++ payload.spare).drop 16⟩ := by
      have : 16 ≤ payload.cap := by
        unfold Slice.cap
        omega
      simp [slice, this]
    have hfrom : ∀ spare' : Bytes,
        sliceFrom payload (21 + Slice.len ⟨((payload.data ++ payload.spare).take
          (21 + b.val)).drop 21, spare'⟩) = .panic "slice bounds out of range" := by
      intro spare'
      have hno : ¬ 21 + b.val ≤ payload.data.length := by omega
      simp only [sliceFrom, Slice.len, hklen, hno, if_false]
    refine ⟨_, hok hcap, hdata, hklen, ?_, ?_⟩
    · show payload.data.length - 21
          < (((payload.data ++ payload.spare).take (21 + b.val)).drop 21).length
      rw [hklen]
      omega
    · simp only [DecryptMessage, hok hcap, Outcome.ok_bind, hsalt, hfrom, Outcome.panic_bind]

/-- C3 on the 86-byte payload whose every byte, `payload[20]` included, is
255 and which has no spare capacity; and on an 86-byte payload of bytes 100
with 40 spare bytes. -/
theorem getAsPublicKey_overrun_panics_witness :
    (getAsPublicKey ⟨List.replicate 86 (255 : Byte), []⟩ = .panic "slice bounds out of range" ∧
      DecryptMessage standIn ⟨"c", "v", "e", [], ⟨[1]⟩⟩ ⟨List.replicate 86 (255 : Byte), []⟩
        = .panic "slice bounds out of range") ∧
    (∃ key : Slice,
      getAsPublicKey ⟨List.replicate 86 (100 : Byte), List.replicate 40 (0 : Byte)⟩
        = .ok key ∧ key.len = 100) :=
  ⟨(getAsPublicKey_overrun_panics standIn ⟨"c", "v", "e", [], ⟨[1]⟩⟩
      ⟨List.replicate 86 (255 : Byte), []⟩ 255 (by decide) (by decide) (by decide)).2.1
      (by decide),
   by
    obtain ⟨key, h1, -, h3, -⟩ :=
      (getAsPublicKey_overrun_panics standIn ⟨"c", "v", "e", [], ⟨[1]⟩⟩
        ⟨List.replicate 86 (100 : Byte), List.replicate 40 (0 : Byte)⟩ 100
        (by decide) (by decide) (by decide)).2.2 (by decide)
    exact ⟨key, h1, h3⟩⟩

/-- C10. For a payload of at least 86 bytes whose key-id length byte
`n = payload[20]` has `21 + n ≤ len(payload)`: `getAsPublicKey` returns
`payload[21:21+n]`, which is `n` bytes long; the salt expression
`payload[0:16]` yields the first 16 bytes; the ciphertext expression
`payload[21+len(key):]` yields everything from `21 + n` on; the five pieces
salt, `payload[16:20]`, `[n]`, key and ciphertext concatenate to the payload;
`DecryptMessage` on the payload is the rest of its pipeline (key agreement,
key schedule, opening, padding removal) run on exactly these three pieces;
hence a payload differing in bytes 16..19 alone decrypts alike. -/
theorem record_layout (payload : Slice) (n : Byte) (hlen : 86 ≤ payload.len)
    (hn : payload.data[20]? = some n) (hfit : 21 + n.val ≤ payload.len) :
    ∃ salt key cipherText : Bytes,
      (∃ k : Slice, getAsPublicKey payload = .ok k ∧ k.data = key) ∧
      (∃ sl : Slice, slice payload 0 16 = .ok sl ∧ sl.data = salt) ∧
      (∃ ct : Slice, sliceFrom payload (21 + key.length) = .ok ct ∧ ct.data = cipherText) ∧
      salt = payload.data.take 16 ∧ salt.length = 16 ∧
      key = (payload.data.take (21 + n.val)).drop 21 ∧ key.length = n.val ∧
      cipherText = payload.data.drop (21 + n.val) ∧
      salt ++ (payload.data.take 20).drop 16 ++ [n] ++ key ++ cipherText = payload.data ∧
      (∀ (P : Primitives) (s : Subscription),
        DecryptMessage P s payload = decryptPieces P s salt key cipherText) ∧
      ∀ (P : Primitives) (s : Subscription) (other : Slice),
        other.len = payload.len → other.data.take 16 = salt →
        other.data.drop 20 = payload.data.drop 20 →
        DecryptMessage P s other = DecryptMessage P s payload := by
  have hlen' : 86 ≤ payload.data.length := hlen
  have hfit' : 21 + n.val ≤ payload.data.length := hfit
  obtain ⟨k, hk, hkd, -⟩ := getAsPublicKey_fits payload n hlen hn hfit
  have hklen := length_key payload.data n.val hfit'
  refine ⟨payload.data.take 16, (payload.data.take (21 + n.val)).drop 21,
    payload.data.drop (21 + n.val), ⟨k, hk, hkd⟩, slice_salt payload (by omega), ?_, rfl, ?_,
    rfl, hklen, rfl, record_split payload.data n hn,
    fun P s => DecryptMessage_pieces P s payload n hlen hn hfit, ?_⟩
  · rw [hklen]
    exact ⟨_, sliceFrom_rest payload _ hfit, rfl⟩
  · simp only [List.length_take]
    omega
  · intro P s other holen hsalt hrest
    have holen' : other.data.length = payload.data.length := holen
    have hon : other.data[20]? = some n := by
      have h1 : other.data[20]? = (other.data.drop 20)[0]? := by simp
      have h2 : payload.data[20]? = (payload.data.drop 20)[0]? := by simp
      rw [h1, hrest, ← h2, hn]
    have hofit : 21 + n.val ≤ other.len := by
      unfold Slice.len
      omega
    have hk : (other.data.take (21 + n.val)).drop 21
        = (payload.data.take (21 + n.val)).drop 21 := by
      have e1 : ∀ l : Bytes, (l.take (21 + n.val)).drop 21
          = (((l.drop 20).take (1 + n.val))).drop 1 := by
        intro l
        rw [List.drop_take, List.drop_take, List.drop_drop]
        simp
      rw [e1 other.data, e1 payload.data, hrest]
    have hc : other.data.drop (21 + n.val) = payload.data.drop (21 + n.val) := by
      have e2 : ∀ l : Bytes, l.drop (21 + n.val) = (l.drop 20).drop (1 + n.val) := by
        intro l
        rw [List.drop_drop]
        congr 1
        omega
      rw [e2 other.data, e2 payload.data, hrest]
    rw [DecryptMessage_pieces P s other n (by unfold Slice.len; omega) hon hofit,
      DecryptMessage_pieces P s payload n hlen hn hfit, hsalt, hk, hc]

/-- C10 on an 86-byte payload with key-id length 65 and 3 spare bytes. -/
theorem record_layout_witness :
    ∃ salt key cipherText : Bytes,
      salt = List.replicate 16 (65 : Byte) ∧ key = List.replicate 65 (65 : Byte) ∧
      cipherText = [] ∧
      ∀ (P : Primitives) (s : Subscription),
        DecryptMessage P s ⟨List.replicate 86 (65 : Byte), [1, 2, 3]⟩
          = decryptPieces P s salt key cipherText := by
  obtain ⟨salt, key, cipherText, -, -, -, h1, -, h2, -, h3, -, h4, -⟩ :=
    record_layout ⟨List.replicate 86 (65 : Byte), [1, 2, 3]⟩ 65 (by decide) (by decide)
      (by decide)
  exact ⟨salt, key, cipherText, by rw [h1]; decide, by rw [h2]; decide, by rw [h3]; decide, h4⟩

/-! ## Round trip -/

theorem getHKDFKey_length (r : Reader) (n : Nat) : (getHKDFKey r n).1.length = n := by
  have h : (ReadFull r n).1.length = n := by
    simp only [ReadFull, List.length_append, List.length_replicate, List.length_take]
    omega
  simp only [getHKDFKey]
  split <;> exact h

/-- When the HKDF instance yields its `n` bytes, `getHKDFKey` returns exactly
those bytes and no error. -/
theorem getHKDFKey_output (r : Reader) (n : Nat) (v : Bytes) (h : hkdfOutput r n = some v) :
    checked (getHKDFKey r n) = .ok v ∧ v.length = n := by
  unfold hkdfOutput at h
  split at h
  · next hc =>
    obtain ⟨herr, hlen⟩ := hc
    have hv : (r n).1 = v := Option.some.inj h
    have hvlen : v.length = n := by rw [← hv]; exact hlen
    have htake : ((r n).1).take n = v := by
      rw [hv]
      exact List.take_of_length_le (Nat.le_of_eq hvlen)
    have hfull : ReadFull r n = (v, n, none) := by
      unfold ReadFull
      simp only [htake, hvlen, herr, Nat.sub_self, List.replicate_zero, List.append_nil]
    refine ⟨?_, hvlen⟩
    unfold getHKDFKey
    simp only [hfull, hvlen, ne_eq, not_true_eq_false, or_self, if_false]
    rfl
  · exact absurd h (by simp)

theorem prkInfoLabel_bytes : prkInfoLabel = webPushInfo := by decide

theorem contentEncryptionKeyInfo_bytes : contentEncryptionKeyInfo = aes128gcmInfo := by decide

theorem nonceInfo_bytes : nonceInfo = nonceLabel := by decide

theorem built_record (salt rs key ct : Bytes) (b : Byte) (hs : salt.length = 16)
    (hr : rs.length = 4) (hk : key.length = b.val) :
    (salt ++ rs ++ [b] ++ key ++ ct)[20]? = some b ∧
    ((salt ++ rs ++ [b] ++ key ++ ct).take (21 + b.val)).drop 21 = key ∧
    (salt ++ rs ++ [b] ++ key ++ ct).drop (21 + b.val) = ct ∧
    (salt ++ rs ++ [b] ++ key ++ ct).take 16 = salt ∧
    21 + b.val ≤ (salt ++ rs ++ [b] ++ key ++ ct).length := by
  have h20 : (salt ++ rs).length = 20 := by simp [hs, hr]
  have h21 : (salt ++ rs ++ [b]).length = 21 := by simp [hs, hr]
  have hall : (salt ++ rs ++ [b] ++ key).length = 21 + b.val := by
    simp only [List.length_append, List.length_singleton, hs, hr, hk]
  refine ⟨?_, ?_, ?_, ?_, ?_⟩
  · have e : salt ++ rs ++ [b] ++ key ++ ct = (salt ++ rs) ++ (b :: (key ++ ct)) := by simp
    rw [e, List.getElem?_append_right (by omega), h20]
    simp
  · rw [List.take_left' hall]
    exact List.drop_left' h21
  · exact List.drop_left' hall
  · have e : salt ++ rs ++ [b] ++ key ++ ct = salt ++ (rs ++ [b] ++ key ++ ct) := by simp
    rw [e]
    exact List.take_left' hs
  · simp only [List.length_append, List.length_singleton, hs, hr, hk]
    omega

/-- C1. Round trip. The sender's record for plaintext `m` is built from the
library calls alone (`senderRecord`): ECDH with the client's public key, the
HKDF outputs for the intermediate key, the content-encryption key and the
nonce under the three literal info strings, and
salt ‖ record size ‖ 65 ‖ sender public ‖ seal(m ‖ 0x02 ‖ k zero bytes), for
a 16-byte salt and a 4-byte record size. If the sender's public key is a
65-byte encoding that `NewPublicKey` accepts, the two sides' ECDH results
agree, and opening what was sealed under the same key and 12-byte nonce gives
back the plaintext, then `DecryptMessage` on that record, in a buffer of any
capacity, returns `m` and no error. -/
theorem DecryptMessage_round_trip (P : Primitives) (s : Subscription)
    (senderPrivate : PrivateKey) (salt recordSize m : Bytes) (k : Nat) (record spare : Bytes)
    (hsalt : salt.length = 16) (hsize : recordSize.length = 4)
    (hpub : (P.publicKeyOf senderPrivate).encoding.length = 65)
    (hvalid : P.checkPoint (P.publicKeyOf senderPrivate).encoding = none)
    (hsym : P.ECDH s.ClientPrivate (P.publicKeyOf senderPrivate)
      = P.ECDH senderPrivate (P.publicKeyOf s.ClientPrivate))
    (hgcm : ∀ (gcm : P.AEAD) (nonce pt : Bytes), nonce.length = 12 →
      P.gcmOpen gcm nonce (P.gcmSeal gcm nonce pt) = .ok pt)
    (hrec : senderRecord P (P.publicKeyOf s.ClientPrivate).encoding senderPrivate s.Auth
      salt recordSize m k = some record) :
    DecryptMessage P s ⟨record, spare⟩ = .ok m := by
  unfold senderRecord at hrec
  have heta : (⟨(P.publicKeyOf s.ClientPrivate).encoding⟩ : PublicKey)
      = P.publicKeyOf s.ClientPrivate := rfl
  rw [heta] at hrec
  cases hss : P.ECDH senderPrivate (P.publicKeyOf s.ClientPrivate) with
  | error e =>
    rw [hss] at hrec
    cases hrec
  | ok sharedSecret =>
    rw [hss] at hrec
    cases hikm : hkdfOutput (P.hkdfNew sharedSecret s.Auth
        (webPushInfo ++ (P.publicKeyOf s.ClientPrivate).encoding
          ++ (P.publicKeyOf senderPrivate).encoding)) 32 with
    | none =>
      simp only [hikm] at hrec
      cases hrec
    | some ikm =>
      simp only [hikm] at hrec
      cases hcek : hkdfOutput (P.hkdfNew ikm salt aes128gcmInfo) 16 with
      | none =>
        simp only [hcek] at hrec
        cases hrec
      | some cek =>
        cases hnonce : hkdfOutput (P.hkdfNew ikm salt nonceLabel) 12 with
        | none =>
          simp only [hcek, hnonce] at hrec
          cases hrec
        | some nonce =>
          simp only [hcek, hnonce] at hrec
          cases hc : P.aesNewCipher cek with
          | error e =>
            simp only [hc] at hrec
            cases hrec
          | ok block =>
            simp only [hc] at hrec
            cases hg : P.newGCM block with
            | error e =>
              simp only [hg] at hrec
              cases hrec
            | ok gcm =>
              simp only [hg, Option.some.injEq] at hrec
              have h65 : (P.publicKeyOf senderPrivate).encoding.length = (65 : Byte).val := hpub
              obtain ⟨h20, hkey, hct, hs16, hfit⟩ :=
                built_record salt recordSize (P.publicKeyOf senderPrivate).encoding
                  (P.gcmSeal gcm nonce (m ++ [0x02] ++ List.replicate k (0x00 : Byte))) 65
                  hsalt hsize h65
              rw [hrec] at h20 hkey hct hs16 hfit
              have hlen : 86 ≤ record.length := hfit
              rw [DecryptMessage_pieces P s ⟨record, spare⟩ 65 hlen h20 hfit]
              simp only [hkey, hct, hs16]
              have hnew : NewPublicKey P (P.publicKeyOf senderPrivate).encoding
                  = .ok (P.publicKeyOf senderPrivate) := by
                simp [NewPublicKey, hvalid]
              have hshared : Outcome.ofExcept
                  (P.ECDH s.ClientPrivate (P.publicKeyOf senderPrivate))
                  = .ok sharedSecret := by
                rw [hsym, hss]
                rfl
              obtain ⟨hikm', -⟩ := getHKDFKey_output _ _ _ hikm
              obtain ⟨hcek', -⟩ := getHKDFKey_output _ _ _ hcek
              obtain ⟨hnonce', hn12⟩ := getHKDFKey_output _ _ _ hnonce
              have hopen : gcmOpenCall P gcm nonce
                  (P.gcmSeal gcm nonce (m ++ [0x02] ++ List.replicate k (0x00 : Byte)))
                  = .ok (m ++ [0x02] ++ List.replicate k (0x00 : Byte)) := by
                simp [gcmOpenCall, hn12, hgcm gcm nonce _ hn12, Outcome.ofExcept]
              have hpad : removePadding (m ++ [0x02] ++ List.replicate k (0x00 : Byte)) 0x02
                  = m := by
                rw [List.append_assoc, List.singleton_append]
                apply removePadding_split
                intro hmem
                exact absurd (List.eq_of_mem_replicate hmem) (by decide)
              have hc' : Outcome.ofExcept (P.aesNewCipher cek) = .ok block := by
                rw [hc]
                rfl
              have hg' : Outcome.ofExcept (P.newGCM block) = .ok gcm := by
                rw [hg]
                rfl
              simp only [decryptPieces, hnew, hshared, prkInfoLabel_bytes,
                contentEncryptionKeyInfo_bytes, nonceInfo_bytes, hikm', hcek', hnonce', hc', hg',
                hopen, hpad, Outcome.ok_bind, Outcome.pure_eq]

/-- C1 on the stand-in library: client scalar 1, sender scalar 2, plaintext
"hi" with two bytes of padding, the record in a buffer with 3 spare bytes. -/
theorem DecryptMessage_round_trip_witness :
    ∃ record : Bytes,
      senderRecord standIn (standIn.publicKeyOf ⟨[1]⟩).encoding ⟨[2]⟩ (List.replicate 16 9)
        (List.replicate 16 7) [0, 0, 16, 0] [0x68, 0x69] 2 = some record ∧
      DecryptMessage standIn ⟨"c", "v", "e", List.replicate 16 9, ⟨[1]⟩⟩ ⟨record, [1, 2, 3]⟩
        = .ok [0x68, 0x69] :=
  ⟨_, rfl,
    DecryptMessage_round_trip standIn ⟨"c", "v", "e", List.replicate 16 9, ⟨[1]⟩⟩ ⟨[2]⟩
      (List.replicate 16 7) [0, 0, 16, 0] [0x68, 0x69] 2 _ [1, 2, 3] (by decide) (by decide)
      (by decide) (by decide) rfl
      (by intro gcm nonce pt _; simp [standIn])
      rfl⟩

/-! ## Connecting -/

theorem connectLoop_fail (script : Nat → Attempt) (err : Option Error) (n : Nat) (st : State)
    (h : (script st.dials).fails = true) :
    connectLoop script err (n + 1) st
      = connectLoop script err n (afterFailure (script st.dials) st) := by
  rw [connectLoop]
  cases hs : script st.dials with
  | dialFails e => simp [afterFailure]
  | marshalFails e => simp [afterFailure]
  | writeFails e => simp [afterFailure, State.emit]
  | readFails e => simp [afterFailure, State.emit]
  | response f =>
    rw [hs] at h
    cases hd : f.unmarshalError with
    | some e => simp [afterFailure, hd, State.emit]
    | none =>
      simp only [Attempt.fails, hd] at h
      cases hm : f.decoded.lookup "messageType" with
      | none => simp [hm] at h
      | some v =>
        cases v with
        | str t =>
          have ht : t ≠ "hello" := by simpa [hm] using h
          simp [afterFailure, hd, hm, assertString, ht, State.emit]
        | null => simp [hm] at h
        | bool b => simp [hm] at h
        | num q => simp [hm] at h
        | compound => simp [hm] at h

theorem connectLoop_success (script : Nat → Attempt) (err : Option Error) (n : Nat)
    (st : State) (u : String) (h : (script st.dials).succeedsWith = some u) :
    connectLoop script err (n + 1) st = (.ok (some st.dials), afterSuccess u st) := by
  rw [connectLoop]
  cases hs : script st.dials with
  | dialFails e => simp [hs, Attempt.succeedsWith] at h
  | marshalFails e => simp [hs, Attempt.succeedsWith] at h
  | writeFails e => simp [hs, Attempt.succeedsWith] at h
  | readFails e => simp [hs, Attempt.succeedsWith] at h
  | response f =>
    rw [hs] at h
    cases hd : f.unmarshalError with
    | some e => simp [Attempt.succeedsWith, hd] at h
    | none =>
      simp only [Attempt.succeedsWith, hd] at h
      split at h
      · next t u' hm hu =>
        by_cases ht : t = "hello"
        · simp only [ht, if_true, Option.some.injEq] at h
          subst h
          subst ht
          simp [hd, hm, hu, assertString, afterSuccess, State.emit, State.setUAID]
        · simp [ht] at h
      · exact absurd h (by simp)

theorem afterFailure_dials (a : Attempt) (st : State) :
    (afterFailure a st).dials = st.dials + 1 := by
  cases a with
  | response f => cases hd : f.unmarshalError <;> simp [afterFailure, hd, State.emit]
  | _ => rfl

theorem afterFailure_ua (a : Attempt) (st : State) : (afterFailure a st).ua = st.ua := by
  cases a with
  | response f => cases hd : f.unmarshalError <;> simp [afterFailure, hd, State.emit]
  | _ => rfl

theorem afterFailure_trace (a : Attempt) (st : State) :
    ∃ extra, (afterFailure a st).trace = st.trace ++ Event.dial :: extra ∧
      ∀ e ∈ extra, e = Event.hello (helloUAID st.ua.UAID) ∨ e = Event.close st.dials := by
  unfold afterFailure
  cases a with
  | dialFails e => exact ⟨[], by simp [State.emit], by simp⟩
  | marshalFails e => exact ⟨[.close st.dials], by simp [State.emit], by simp⟩
  | writeFails e =>
    exact ⟨[.hello (helloUAID st.ua.UAID), .close st.dials], by simp [State.emit], by simp⟩
  | readFails e =>
    exact ⟨[.hello (helloUAID st.ua.UAID), .close st.dials], by simp [State.emit], by simp⟩
  | response f =>
    cases hd : f.unmarshalError with
    | some e =>
      exact ⟨[.hello (helloUAID st.ua.UAID), .close st.dials], by simp [State.emit, hd],
        by simp⟩
    | none => exact ⟨[.hello (helloUAID st.ua.UAID)], by simp [State.emit, hd], by simp⟩

theorem afterFailure_dialCount (a : Attempt) (st : State) :
    (afterFailure a st).trace.count Event.dial = st.trace.count Event.dial + 1 := by
  obtain ⟨extra, htrace, hextra⟩ := afterFailure_trace a st
  have hzero : extra.count Event.dial = 0 := by
    rw [List.count_eq_zero]
    intro hmem
    rcases hextra _ hmem with h | h <;> exact absurd h (by simp)
  rw [htrace, List.count_append, List.count_cons_self, hzero]

theorem afterSuccess_dialCount (u : String) (st : State) :
    (afterSuccess u st).trace.count Event.dial = st.trace.count Event.dial + 1 := by
  simp [afterSuccess, State.emit, State.setUAID, List.count_append, List.count_cons]

theorem connectLoop_all_fail (script : Nat → Attempt) (err : Option Error) (n : Nat) :
    ∀ st : State, (∀ i, i < n → (script (st.dials + i)).fails = true) →
      (connectLoop script err n st).1 = returnNil err ∧
      (connectLoop script err n st).2.dials = st.dials + n ∧
      (connectLoop script err n st).2.trace.count Event.dial
        = st.trace.count Event.dial + n ∧
      (connectLoop script err n st).2.ua = st.ua := by
  induction n with
  | zero => intro st _; simp [connectLoop]
  | succ n ih =>
    intro st h
    have h0 : (script st.dials).fails = true := by simpa using h 0 (Nat.succ_pos n)
    rw [connectLoop_fail script err n st h0]
    have hrest : ∀ i, i < n →
        (script ((afterFailure (script st.dials) st).dials + i)).fails = true := by
      intro i hi
      rw [afterFailure_dials]
      have := h (i + 1) (by omega)
      rwa [show st.dials + 1 + i = st.dials + (i + 1) by omega]
    obtain ⟨h1, h2, h3, h4⟩ := ih _ hrest
    refine ⟨h1, ?_, ?_, ?_⟩
    · rw [h2, afterFailure_dials]; omega
    · rw [h3, afterFailure_dialCount]; omega
    · rw [h4, afterFailure_ua]

theorem connectLoop_first_success (script : Nat → Attempt) (err : Option Error) (u : String)
    (k : Nat) :
    ∀ (n : Nat) (st : State), k < n →
      (∀ i, i < k → (script (st.dials + i)).fails = true) →
      (script (st.dials + k)).succeedsWith = some u →
      (connectLoop script err n st).1 = .ok (some (st.dials + k)) ∧
      (connectLoop script err n st).2.dials = st.dials + (k + 1) ∧
      (connectLoop script err n st).2.trace.count Event.dial
        = st.trace.count Event.dial + (k + 1) ∧
      (connectLoop script err n st).2.ua.UAID = u := by
  induction k with
  | zero =>
    intro n st hn _ hs
    obtain ⟨m, rfl⟩ : ∃ m, n = m + 1 := ⟨n - 1, by omega⟩
    rw [Nat.add_zero] at hs
    rw [connectLoop_success script err m st u hs]
    refine ⟨rfl, ?_, ?_, ?_⟩
    · simp [afterSuccess, State.emit, State.setUAID]
    · exact afterSuccess_dialCount u st
    · simp [afterSuccess, State.emit, State.setUAID]
  | succ k ih =>
    intro n st hn hf hs
    obtain ⟨m, rfl⟩ : ∃ m, n = m + 1 := ⟨n - 1, by omega⟩
    have h0 : (script st.dials).fails = true := by simpa using hf 0 (Nat.succ_pos k)
    rw [connectLoop_fail script err m st h0]
    have hd := afterFailure_dials (script st.dials) st
    have hf' : ∀ i, i < k →
        (script ((afterFailure (script st.dials) st).dials + i)).fails = true := by
      intro i hi
      rw [hd]
      have := hf (i + 1) (by omega)
      rwa [show st.dials + 1 + i = st.dials + (i + 1) by omega]
    have hs' : (script ((afterFailure (script st.dials) st).dials + k)).succeedsWith
        = some u := by
      rw [hd]
      rwa [show st.dials + 1 + k = st.dials + (k + 1) by omega]
    obtain ⟨h1, h2, h3, h4⟩ := ih m _ (by omega) hf' hs'
    refine ⟨?_, ?_, ?_, h4⟩
    · rw [h1, hd, show st.dials + 1 + k = st.dials + (k + 1) by omega]
    · rw [h2, hd]; omega
    · rw [h3, afterFailure_dialCount]; omega

/-- C5 (what the code does). When every one of the six connect attempts fails
(dial, marshalling, write or read failure, undecodable response, or a response
whose `messageType` is a string other than "hello"), `connectPushService`
returns a nil connection together with a nil error: the `err` it returns is the
function-level variable, which no attempt ever assigns. -/
theorem connectPushService_exhausted_returns_nil_error (script : Nat → Attempt) (st : State)
    (h : ∀ i, i < retry + 1 → (script (st.dials + i)).fails = true) :
    (connectPushService script st).1 = .ok none := by
  exact (connectLoop_all_fail script none (retry + 1) st h).1

/-- C5 on a service that refuses every dial, from the state `main` starts in. -/
theorem connectPushService_exhausted_returns_nil_error_witness :
    (connectPushService unreachableService freshState).1 = .ok none :=
  connectPushService_exhausted_returns_nil_error unreachableService freshState
    (by intro i _; rfl)

/-- C6. Retry bound. When each of the next six attempts fails,
`connectPushService` returns (it does not panic) after exactly six dials: the
dial counter and the number of dial events both grow by 6. When the first `k`
attempts fail (`k ≤ 5`) and the next one succeeds, it returns that attempt's
connection after exactly `k + 1` dials. -/
theorem connectPushService_retry_bound (script : Nat → Attempt) (st : State) :
    ((∀ i, i < 6 → (script (st.dials + i)).fails = true) →
      (∀ w, (connectPushService script st).1 ≠ .panic w) ∧
      (connectPushService script st).2.dials = st.dials + 6 ∧
      (connectPushService script st).2.trace.count Event.dial
        = st.trace.count Event.dial + 6) ∧
    (∀ (k : Nat) (u : String), k < 6 →
      (∀ i, i < k → (script (st.dials + i)).fails = true) →
      (script (st.dials + k)).succeedsWith = some u →
      (connectPushService script st).1 = .ok (some (st.dials + k)) ∧
      (connectPushService script st).2.dials = st.dials + (k + 1) ∧
      (connectPushService script st).2.trace.count Event.dial
        = st.trace.count Event.dial + (k + 1)) := by
  constructor
  · intro h
    obtain ⟨h1, h2, h3, -⟩ := connectLoop_all_fail script none (retry + 1) st h
    refine ⟨?_, h2, h3⟩
    intro w hw
    have : (connectPushService script st).1 = .ok none := h1
    rw [this] at hw
    exact absurd hw (by simp)
  · intro k u hk hf hs
    obtain ⟨h1, h2, h3, -⟩ :=
      connectLoop_first_success script none u k (retry + 1) st hk hf hs
    exact ⟨h1, h2, h3⟩

/-- C6 on a service that refuses every dial, and on one that answers the first
dial with a hello. -/
theorem connectPushService_retry_bound_witness :
    (connectPushService unreachableService freshState).2.dials = 6 ∧
    (connectPushService reassigningService freshState).1 = .ok (some 0) ∧
    (connectPushService reassigningService freshState).2.dials = 1 :=
  ⟨by simpa [freshState] using
      ((connectPushService_retry_bound unreachableService freshState).1
        (by intro i _; rfl)).2.1,
   ((connectPushService_retry_bound reassigningService freshState).2 0 "X" (by decide)
      (by intro i hi; omega) rfl).1,
   ((connectPushService_retry_bound reassigningService freshState).2 0 "X" (by decide)
      (by intro i hi; omega) rfl).2.1⟩

/-! ## Session id -/

theorem connectLoop_step (script : Nat → Attempt) (err : Option Error) (n : Nat) (st : State) :
    ((script st.dials).fails = true ∧
      connectLoop script err (n + 1) st
        = connectLoop script err n (afterFailure (script st.dials) st)) ∨
    (∃ u, (script st.dials).succeedsWith = some u ∧
      connectLoop script err (n + 1) st = (.ok (some st.dials), afterSuccess u st)) ∨
    (∃ w, connectLoop script err (n + 1) st
      = (.panic w, ({ st with dials := st.dials + 1 }.emit .dial).emit
          (.hello (helloUAID st.ua.UAID)))) := by
  by_cases hf : (script st.dials).fails = true
  · exact Or.inl ⟨hf, connectLoop_fail script err n st hf⟩
  · cases hsu : (script st.dials).succeedsWith with
    | some u => exact Or.inr (Or.inl ⟨u, rfl, connectLoop_success script err n st u hsu⟩)
    | none =>
      refine Or.inr (Or.inr ?_)
      rw [connectLoop]
      cases hs : script st.dials with
      | dialFails e => simp [hs, Attempt.fails] at hf
      | marshalFails e => simp [hs, Attempt.fails] at hf
      | writeFails e => simp [hs, Attempt.fails] at hf
      | readFails e => simp [hs, Attempt.fails] at hf
      | response f =>
        rw [hs] at hf hsu
        cases hd : f.unmarshalError with
        | some e => simp [Attempt.fails, hd] at hf
        | none =>
          simp only [Attempt.fails, hd] at hf
          simp only [Attempt.succeedsWith, hd] at hsu
          cases hm : f.decoded.lookup "messageType" with
          | none => exact ⟨notString, by simp [hd, hm, assertString, State.emit]⟩
          | some v =>
            cases v with
            | str t =>
              have ht : t = "hello" := by simpa [hm] using hf
              subst ht
              cases hu : f.decoded.lookup "uaid" with
              | none => exact ⟨notString, by simp [hd, hm, hu, assertString, State.emit]⟩
              | some v' =>
                cases v' with
                | str u => simp [hm, hu] at hsu
                | null => exact ⟨notString, by simp [hd, hm, hu, assertString, State.emit]⟩
                | bool b => exact ⟨notString, by simp [hd, hm, hu, assertString, State.emit]⟩
                | num q => exact ⟨notString, by simp [hd, hm, hu, assertString, State.emit]⟩
                | compound => exact ⟨notString, by simp [hd, hm, hu, assertString, State.emit]⟩
            | null => exact ⟨notString, by simp [hd, hm, assertString, State.emit]⟩
            | bool b => exact ⟨notString, by simp [hd, hm, assertString, State.emit]⟩
            | num q => exact ⟨notString, by simp [hd, hm, assertString, State.emit]⟩
            | compound => exact ⟨notString, by simp [hd, hm, assertString, State.emit]⟩

theorem helloUAID_nonempty (X : String) (hX : X ≠ "") : helloUAID X = some X := by
  simp [helloUAID, hX]

theorem echoed_refl (X : String) (st : State) (h : st.ua.UAID = X) : Echoed X st st :=
  ⟨h, Nat.le_refl _, [], by simp, by simp⟩

theorem echoed_trans (X : String) (a b c : State) (h1 : Echoed X a b) (h2 : Echoed X b c) :
    Echoed X a c := by
  obtain ⟨-, d1, e1, t1, p1⟩ := h1
  obtain ⟨u2, d2, e2, t2, p2⟩ := h2
  refine ⟨u2, Nat.le_trans d1 d2, e1 ++ e2, by rw [t2, t1, List.append_assoc], ?_⟩
  intro e he
  rcases List.mem_append.mp he with h | h
  · exact p1 e h
  · exact p2 e h

theorem echoed_emit (X : String) (st : State) (e : Event) (h : st.ua.UAID = X)
    (he : ∀ u, e = Event.hello u → u = some X) : Echoed X st (st.emit e) := by
  refine ⟨h, Nat.le_refl _, [e], rfl, ?_⟩
  intro e' he' u hu
  rw [List.mem_singleton] at he'
  subst he'
  exact he u hu

theorem afterFailure_echoed (X : String) (hX : X ≠ "") (a : Attempt) (st : State)
    (h : st.ua.UAID = X) : Echoed X st (afterFailure a st) := by
  obtain ⟨extra, htrace, hextra⟩ := afterFailure_trace a st
  refine ⟨by rw [afterFailure_ua, h], by rw [afterFailure_dials]; omega,
    Event.dial :: extra, htrace, ?_⟩
  intro e he u hu
  rcases List.mem_cons.mp he with h1 | h1
  · rw [h1] at hu
    exact absurd hu (by simp)
  · rcases hextra e h1 with h2 | h2
    · rw [h2, h, helloUAID_nonempty X hX] at hu
      simpa using hu.symm
    · rw [h2] at hu
      exact absurd hu (by simp)

theorem connectLoop_echoed (script : Nat → Attempt) (err : Option Error) (X : String)
    (hX : X ≠ "") (n : Nat) :
    ∀ st : State, st.ua.UAID = X →
      (∀ i u, st.dials ≤ i → (script i).succeedsWith = some u → u = X) →
      Echoed X st (connectLoop script err n st).2 := by
  induction n with
  | zero =>
    intro st h _
    simpa [connectLoop] using echoed_refl X st h
  | succ n ih =>
    intro st h hecho
    have hhello : helloUAID st.ua.UAID = some X := by rw [h]; exact helloUAID_nonempty X hX
    have hstep : Echoed X st (({ st with dials := st.dials + 1 }.emit .dial).emit
        (.hello (helloUAID st.ua.UAID))) := by
      refine ⟨h, by simp [State.emit], [.dial, .hello (helloUAID st.ua.UAID)],
        by simp [State.emit], ?_⟩
      intro e he u hu
      simp only [List.mem_cons, List.mem_singleton, List.not_mem_nil, or_false] at he
      rcases he with h1 | h1
      · rw [h1] at hu
        exact absurd hu (by simp)
      · rw [h1, hhello] at hu
        simpa using hu.symm
    rcases connectLoop_step script err n st with ⟨-, hrun⟩ | ⟨u, hu, hrun⟩ | ⟨w, hrun⟩
    · rw [hrun]
      have hmid := afterFailure_echoed X hX (script st.dials) st h
      refine echoed_trans X _ _ _ hmid (ih _ hmid.1 ?_)
      intro i u hi
      exact hecho i u (Nat.le_trans hmid.2.1 hi)
    · rw [hrun]
      have huX : u = X := hecho st.dials u (Nat.le_refl _) hu
      subst huX
      obtain ⟨-, hd, extra, ht, hp⟩ := hstep
      exact ⟨by simp [afterSuccess, State.setUAID], by simp [afterSuccess, State.emit, State.setUAID],
        extra, by simpa [afterSuccess, State.setUAID] using ht, hp⟩
    · rw [hrun]
      exact hstep

theorem handleMessage_state (P : Primitives) (f : Frame) (st : State) :
    (handleMessage P f st).2 = st ∨ ∃ dec, (handleMessage P f st).2 = st.emit (.print dec) := by
  unfold handleMessage
  simp only
  split
  · exact Or.inl rfl
  · split
    · exact Or.inl rfl
    · exact Or.inl rfl
    · split
      · split
        · exact Or.inl rfl
        · exact Or.inl rfl
        · exact Or.inl rfl
        · exact Or.inr ⟨_, rfl⟩
      · exact Or.inl rfl

theorem handleMessage_echoed (P : Primitives) (X : String) (f : Frame) (st : State)
    (h : st.ua.UAID = X) : Echoed X st (handleMessage P f st).2 := by
  rcases handleMessage_state P f st with h1 | ⟨dec, h1⟩
  · rw [h1]
    exact echoed_refl X st h
  · rw [h1]
    exact echoed_emit X st _ h (by intro u hu; exact absurd hu (by simp))

theorem ReadMessages_echoed (P : Primitives) (script : Nat → Attempt) (X : String)
    (hX : X ≠ "") (reads : List ReadEvent) :
    ∀ (conn : Option Conn) (st : State), st.ua.UAID = X →
      (∀ i u, st.dials ≤ i → (script i).succeedsWith = some u → u = X) →
      Echoed X st (ReadMessages P script reads conn st).2 := by
  induction reads with
  | nil =>
    intro conn st h _
    cases conn with
    | none => simpa [ReadMessages] using echoed_refl X st h
    | some c => simpa [ReadMessages] using echoed_refl X st h
  | cons ev rest ih =>
    intro conn st h hecho
    cases conn with
    | none => simpa [ReadMessages] using echoed_refl X st h
    | some c =>
      cases ev with
      | readError e =>
        have hclose : Echoed X st (st.emit (.close c)) :=
          echoed_emit X st _ h (by intro u hu; exact absurd hu (by simp))
        have hconn : Echoed X (st.emit (.close c))
            (connectPushService script (st.emit (.close c))).2 :=
          connectLoop_echoed script none X hX (retry + 1) _ hclose.1
            (fun i u hi => hecho i u (Nat.le_trans hclose.2.1 hi))
        have hboth := echoed_trans X _ _ _ hclose hconn
        rw [ReadMessages]
        rcases hres : connectPushService script (st.emit (.close c)) with ⟨o, st'⟩
        rw [hres] at hboth
        cases o with
        | panic w => exact hboth
        | error e2 => exact hboth
        | ok conn' =>
          refine echoed_trans X _ _ _ hboth (ih conn' st' hboth.1 ?_)
          intro i u hi
          exact hecho i u (Nat.le_trans hboth.2.1 hi)
      | message f =>
        have hmsg := handleMessage_echoed P X f st h
        rw [ReadMessages]
        rcases hres : handleMessage P f st with ⟨o, st'⟩
        rw [hres] at hmsg
        cases o with
        | panic w => exact hmsg
        | error e2 =>
          refine echoed_trans X _ _ _ hmsg (ih (some c) st' hmsg.1 ?_)
          intro i u hi
          exact hecho i u (Nat.le_trans hmsg.2.1 hi)
        | ok v =>
          refine echoed_trans X _ _ _ hmsg (ih (some c) st' hmsg.1 ?_)
          intro i u hi
          exact hecho i u (Nat.le_trans hmsg.2.1 hi)

/-- C7 as stated fails. The service assigns "X" on the first connect and "Y"
on later ones: the first call succeeds and stores "X"; after two read errors
in `ReadMessages` the second reconnect has written a hello carrying "Y" and
the stored UAID is "Y". And when the service assigns the empty string, the
reconnect's hello omits `uaid`. -/
theorem session_id_replaced_by_later_response :
    (connectPushService reassigningService freshState).1 = .ok (some 0) ∧
    (connectPushService reassigningService freshState).2.ua.UAID = "X" ∧
    (ReadMessages standIn reassigningService
      [.readError (.library 1), .readError (.library 1)] (some 0)
      (connectPushService reassigningService freshState).2).2.ua.UAID = "Y" ∧
    (ReadMessages standIn reassigningService
      [.readError (.library 1), .readError (.library 1)] (some 0)
      (connectPushService reassigningService freshState).2).2.trace
      = [.dial, .hello none, .close 0, .dial, .hello (some "X"), .close 1, .dial,
          .hello (some "Y")] ∧
    (ReadMessages standIn emptyIdService [.readError (.library 1)] (some 0)
      (connectPushService emptyIdService freshState).2).2.trace
      = [.dial, .hello none, .close 0, .dial, .hello none] := by
  decide

/-- C7 as amended. From a state whose stored UAID is a non-empty `X`, as long
as every later successful hello response carries `uaid = X` again, every hello
message written by a later `connectPushService` call, called directly or as a
reconnect from `ReadMessages` on any sequence of reads, carries `uaid = X`,
and the stored UAID stays `X`. -/
theorem session_id_stable_while_echoed (P : Primitives) (script : Nat → Attempt)
    (reads : List ReadEvent) (conn : Option Conn) (st : State) (X : String)
    (hX : X ≠ "") (hst : st.ua.UAID = X)
    (hecho : ∀ i u, st.dials ≤ i → (script i).succeedsWith = some u → u = X) :
    ((connectPushService script st).2.ua.UAID = X ∧
      ∃ extra, (connectPushService script st).2.trace = st.trace ++ extra ∧
        ∀ e ∈ extra, ∀ u, e = Event.hello u → u = some X) ∧
    ((ReadMessages P script reads conn st).2.ua.UAID = X ∧
      ∃ extra, (ReadMessages P script reads conn st).2.trace = st.trace ++ extra ∧
        ∀ e ∈ extra, ∀ u, e = Event.hello u → u = some X) := by
  have h1 := connectLoop_echoed script none X hX (retry + 1) st hst hecho
  have h2 := ReadMessages_echoed P script X hX reads conn st hst hecho
  exact ⟨⟨h1.1, h1.2.2⟩, ⟨h2.1, h2.2.2⟩⟩

/-- C7 as amended, on a service that echoes "X": one read error, one frame,
another read error. -/
theorem session_id_stable_while_echoed_witness :
    ((connectPushService echoingService listeningState).2.ua.UAID = "X" ∧
      ∃ extra, (connectPushService echoingService listeningState).2.trace
          = listeningState.trace ++ extra ∧
        ∀ e ∈ extra, ∀ u, e = Event.hello u → u = some "X") ∧
    ((ReadMessages standIn echoingService
        [.readError (.library 1), .message numericTypeFrame, .readError (.library 1)]
        (some 0) listeningState).2.ua.UAID = "X" ∧
      ∃ extra, (ReadMessages standIn echoingService
          [.readError (.library 1), .message numericTypeFrame, .readError (.library 1)]
          (some 0) listeningState).2.trace = listeningState.trace ++ extra ∧
        ∀ e ∈ extra, ∀ u, e = Event.hello u → u = some "X") :=
  session_id_stable_while_echoed standIn echoingService
    [.readError (.library 1), .message numericTypeFrame, .readError (.library 1)]
    (some 0) listeningState "X" (by decide) rfl
    (by
      intro i u _ h
      simpa [echoingService, Attempt.succeedsWith, helloFrame, List.lookup] using h.symm)

/-! ## Frames in the receive loop -/

theorem handleMessage_untyped (P : Primitives) (f : Frame) (st : State)
    (hm : f.decoded.lookup "messageType" = none) :
    handleMessage P f st = (.ok (), st) := by
  simp [handleMessage, hm]

theorem handleMessage_other_type (P : Primitives) (f : Frame) (st : State)
    (t : String) (hm : f.decoded.lookup "messageType" = some (.str t))
    (ht : t ≠ "notification") : handleMessage P f st = (.ok (), st) := by
  simp [handleMessage, hm, assertString, ht]

/-- A frame whose decoded map has no `messageType` (as for a frame that is not
valid JSON, where the map stays nil), or whose `messageType` is a string other
than "notification", is passed over: the loop goes on with the next read from
the same state. -/
theorem ReadMessages_passes_over (P : Primitives) (script : Nat → Attempt)
    (rest : List ReadEvent) (c : Conn) (st : State) (f : Frame)
    (h : f.decoded.lookup "messageType" = none ∨
      (∃ t, f.decoded.lookup "messageType" = some (.str t) ∧ t ≠ "notification")) :
    ReadMessages P script (.message f :: rest) (some c) st
      = ReadMessages P script rest (some c) st := by
  have hh : handleMessage P f st = (.ok (), st) := by
    rcases h with hm | ⟨t, hm, ht⟩
    · exact handleMessage_untyped P f st hm
    · exact handleMessage_other_type P f st t hm ht
  rw [ReadMessages, hh]

/-- C8 (what the code does). A frame whose `messageType` is present but not a
string makes `ReadMessages` panic on `t.(string)`; so does a notification frame
whose `channelID` is absent or not a string, as soon as the user agent holds a
subscription. This holds whether or not `json.Unmarshal` reported an error
(the error is dropped). The frames after it are never read. -/
theorem ReadMessages_panics_on_frame (P : Primitives) (script : Nat → Attempt)
    (rest : List ReadEvent) (c : Conn) (st : State) (f : Frame) :
    ((∃ t, f.decoded.lookup "messageType" = some t ∧ ∀ s, t ≠ .str s) →
      ReadMessages P script (.message f :: rest) (some c) st = (.panicked notString, st)) ∧
    (f.decoded.lookup "messageType" = some (.str "notification") →
      (∀ s, f.decoded.lookup "channelID" ≠ some (.str s)) → st.ua.Subscriptions ≠ [] →
      ReadMessages P script (.message f :: rest) (some c) st = (.panicked notString, st)) := by
  constructor
  · rintro ⟨t, hm, ht⟩
    have hh : handleMessage P f st = (.panic notString, st) := by
      cases t with
      | str s => exact absurd rfl (ht s)
      | null => simp [handleMessage, hm, assertString]
      | bool b => simp [handleMessage, hm, assertString]
      | num q => simp [handleMessage, hm, assertString]
      | compound => simp [handleMessage, hm, assertString]
    rw [ReadMessages, hh]
  · intro hm hch hsubs
    have hassert : assertString (f.decoded.lookup "channelID") = .panic notString := by
      unfold assertString
      split
      · next s hs => exact absurd hs (hch s)
      · rfl
    have hdel : deliver P f.decoded st.ua.Subscriptions = .panic notString := by
      cases hsub : st.ua.Subscriptions with
      | nil => exact absurd hsub hsubs
      | cons s tl => simp [deliver, hassert]
    have hh : handleMessage P f st = (.panic notString, st) := by
      simp [handleMessage, hm, assertString, hdel]
    rw [ReadMessages, hh]

/-- C8 on a frame with `messageType` 5 followed by a further frame, and on a
notification frame without `channelID`. -/
theorem ReadMessages_panics_on_frame_witness :
    ReadMessages standIn echoingService [.message numericTypeFrame, .message noChannelFrame]
      (some 0) listeningState = (.panicked notString, listeningState) ∧
    ReadMessages standIn echoingService [.message noChannelFrame] (some 0) listeningState
      = (.panicked notString, listeningState) :=
  ⟨(ReadMessages_panics_on_frame standIn echoingService [.message noChannelFrame] 0
      listeningState numericTypeFrame).1
      ⟨.num 5, rfl, by intro s h; cases h⟩,
   (ReadMessages_panics_on_frame standIn echoingService [] 0
      listeningState noChannelFrame).2
      rfl (by intro s h; simp [noChannelFrame, List.lookup] at h) (by decide)⟩

/-! ## Registration -/

/-- C9 (what the code does). On a register response that decodes but has no
`messageType`, or has `messageType` "register" and no `status`,
`registerSubscription` panics on the type assertion; it returns neither an
error nor a subscription. -/
theorem registerSubscription_panics_on_missing_field (env : RegisterEnv) (c : Conn)
    (vapID : String) (st : State) (r : Frame)
    (hmarshal : env.marshal = none) (hread : env.read = .ok r)
    (hdec : r.unmarshalError = none) :
    (r.decoded.lookup "messageType" = none →
      registerSubscription env (some c) vapID st
        = (.panic notString, st.emit (.register env.chID vapID))) ∧
    (r.decoded.lookup "messageType" = some (.str "register") →
      r.decoded.lookup "status" = none →
      registerSubscription env (some c) vapID st
        = (.panic notFloat64, st.emit (.register env.chID vapID))) := by
  constructor
  · intro hm
    simp [registerSubscription, hmarshal, hread, hdec, hm, assertString]
  · intro hm hs
    simp [registerSubscription, hmarshal, hread, hdec, hm, hs, assertString, assertFloat64]

/-- C9 on a response with status 200 and an endpoint but no `messageType`, and
on one with `messageType` "register" but no `status`. -/
theorem registerSubscription_panics_on_missing_field_witness :
    registerSubscription (registerEnv untypedRegisterFrame) (some 0) "v" freshState
      = (.panic notString, freshState.emit (.register "c1" "v")) ∧
    registerSubscription (registerEnv statuslessRegisterFrame) (some 0) "v" freshState
      = (.panic notFloat64, freshState.emit (.register "c1" "v")) :=
  ⟨(registerSubscription_panics_on_missing_field (registerEnv untypedRegisterFrame) 0 "v"
      freshState untypedRegisterFrame rfl rfl rfl).1 rfl,
   (registerSubscription_panics_on_missing_field (registerEnv statuslessRegisterFrame) 0 "v"
      freshState statuslessRegisterFrame rfl rfl rfl).2 rfl rfl⟩

end Nicoalert
